import Mathlib

/-!
Shallow embedding of the fivex_eQTL client helpers, centred on the search
query resolver (`parseSearchText` and its collaborators `getOmniSearch`,
`getBestVar`, `failureCallback`, `handleErrors`) and on the helpers
`retrieveBySuffix` and `LocusZoom.Data.PheGET.annotateData`.

JavaScript values reaching these functions are modelled by `JSVal`
(undefined, null, numbers, NaN, strings, objects as ordered field lists,
arrays).  Settled promises are modelled as an `Except` outcome paired with
the ordered trace of observable effects (network calls issued and console
log lines written), so that claims counting lookups and diagnostics can be
stated as equalities on traces.  Numeric record fields of `annotateData`
are modelled as rationals: the function only compares and ranks them, so
only their linear order matters.
-/

/-- Model of the JavaScript values flowing through the resolver: primitive
values, objects (fields listed in property enumeration order) and arrays. -/
inductive JSVal where
  | undef
  | null
  | num (n : Int)
  | nan
  | str (s : String)
  | obj (fields : List (String × JSVal))
  | arr (elems : List JSVal)

/-- Property access `v.f`.  Access on `undefined`/`null` throws a TypeError;
objects yield the first binding of the key (or `undefined`); other values
yield `undefined` for the field names used by this code. -/
def getField : JSVal → String → Except String JSVal
  | JSVal.undef, f => Except.error ("TypeError: cannot read " ++ f ++ " of undefined")
  | JSVal.null, f => Except.error ("TypeError: cannot read " ++ f ++ " of null")
  | JSVal.obj fields, f =>
      Except.ok (((fields.find? (fun kv => kv.1 == f)).map (fun kv => kv.2)).getD JSVal.undef)
  | JSVal.num _, _ => Except.ok JSVal.undef
  | JSVal.nan, _ => Except.ok JSVal.undef
  | JSVal.str _, _ => Except.ok JSVal.undef
  | JSVal.arr _, _ => Except.ok JSVal.undef

/-- Index access `v[0]`, as used for `myJson.data[0]`.  Throws on
`undefined`/`null`; an empty array yields `undefined`; a string yields its
first character. -/
def getIndex0 : JSVal → Except String JSVal
  | JSVal.undef => Except.error "TypeError: cannot read 0 of undefined"
  | JSVal.null => Except.error "TypeError: cannot read 0 of null"
  | JSVal.arr [] => Except.ok JSVal.undef
  | JSVal.arr (x :: _) => Except.ok x
  | JSVal.obj fields =>
      Except.ok (((fields.find? (fun kv => kv.1 == "0")).map (fun kv => kv.2)).getD JSVal.undef)
  | JSVal.str s => Except.ok (if s.isEmpty then JSVal.undef else JSVal.str (s.take 1))
  | JSVal.num _ => Except.ok JSVal.undef
  | JSVal.nan => Except.ok JSVal.undef

mutual

/-- String coercion (template-literal interpolation): `undefined` prints as
"undefined", integers in decimal, arrays join their elements with commas. -/
def jsToString : JSVal → String
  | JSVal.undef => "undefined"
  | JSVal.null => "null"
  | JSVal.num n => toString n
  | JSVal.nan => "NaN"
  | JSVal.str s => s
  | JSVal.obj _ => "[object Object]"
  | JSVal.arr l => String.intercalate "," (jsToStringList l)
termination_by structural v => v

/-- Elements of an array under `join(',')`; inside a join, `undefined` and
`null` render as empty strings. -/
def jsToStringList : List JSVal → List String
  | [] => []
  | JSVal.undef :: vs => "" :: jsToStringList vs
  | JSVal.null :: vs => "" :: jsToStringList vs
  | v :: vs => jsToString v :: jsToStringList vs
termination_by structural l => l

end

/-- Observable effects of the resolver: a network request to a URL, or a
`console.log` line. -/
inductive Event where
  | call (url : String)
  | log (msg : String)

/-- A settled promise: the fulfilment value or the rejection reason (error
message string), together with the ordered trace of effects produced while
settling it. -/
abbrev Promise := Except String JSVal × List Event

/-- Promise fulfilled with `v`, no effects (like `Promise.resolve(v)`). -/
def presolve (v : JSVal) : Promise := (Except.ok v, [])

/-- Promise rejected with error `e`, no effects. -/
def preject (e : String) : Promise := (Except.error e, [])

/-- Model of `p.then(f)`: on fulfilment run the handler (its returned
promise is flattened, a throw inside it rejects); on rejection pass the
rejection through untouched. -/
def pthen (p : Promise) (f : JSVal → Promise) : Promise :=
  match p with
  | (Except.error e, tr) => (Except.error e, tr)
  | (Except.ok v, tr) =>
      let q := f v
      (q.1, tr ++ q.2)

/-- Model of `p.catch(f)`: on rejection run the handler, on fulfilment pass
the value through untouched. -/
def pcatch (p : Promise) (f : String → Promise) : Promise :=
  match p with
  | (Except.ok v, tr) => (Except.ok v, tr)
  | (Except.error e, tr) =>
      let q := f e
      (q.1, tr ++ q.2)

/-- Model of `failureCallback`: logs `'Error status: ' + error` and returns
`undefined` (so a `.catch(failureCallback)` fulfils with `undefined`). -/
def failureCallback (e : String) : Promise :=
  (Except.ok JSVal.undef, [Event.log ("Error status: " ++ e)])

/-- Outcome of one `fetch(url)` as mocked by a test environment: either the
request rejects, or it resolves with an ok flag, a status text, and the
result of `response.json()` (which may itself reject). -/
inductive FetchResult where
  | reject (err : String)
  | resolve (ok : Bool) (statusText : String) (body : Except String JSVal)

/-- Mocked network: responses of the omnisearch endpoint (keyed by the
search text) and of the best-variant endpoint (keyed by the interpolated
symbol). -/
structure NetEnv where
  omni : String → FetchResult
  bestvar : String → FetchResult

/-- Model of `fetch(url).then(handleErrors).then((r) => r.json())`:
`handleErrors` throws `Error(response.statusText)` when `!response.ok`
(an `Error` stringifies as `"Error: " ++ statusText`), otherwise the JSON
body (or its parse failure) is the outcome.  The fetch itself is the one
network call recorded in the trace. -/
def fetchJson (fr : FetchResult) (url : String) : Promise :=
  match fr with
  | FetchResult.reject e => (Except.error e, [Event.call url])
  | FetchResult.resolve ok statusText body =>
      if ok then (body, [Event.call url])
      else (Except.error ("Error: " ++ statusText), [Event.call url])

/-- URL built by `getOmniSearch`. -/
def omniUrl (searchText : String) : String :=
  "https://portaldev.sph.umich.edu/api/v1/annotation/omnisearch/?q=" ++ searchText ++ "&build=GRCh38"

/-- Model of `getOmniSearch`: fetch the omnisearch endpoint, extract
`myJson.data[0]`; any error in the chain is caught, logged once, and the
promise fulfils with `undefined`. -/
def getOmniSearch (env : NetEnv) (searchText : String) : Promise :=
  pcatch
    (pthen (fetchJson (env.omni searchText) (omniUrl searchText))
      (fun myJson =>
        match getField myJson "data" with
        | Except.error e => preject e
        | Except.ok d =>
            match getIndex0 d with
            | Except.error e => preject e
            | Except.ok v => presolve v))
    (fun e => (Except.ok JSVal.undef, [Event.log ("Omnisearch error, status code: " ++ e)]))

/-- URL built by `getBestVar`; the symbol is interpolated into the template
literal, so a non-string symbol is coerced (`undefined` becomes
"undefined"). -/
def bestVarUrl (symbol : JSVal) : String :=
  "/api/gene/" ++ jsToString symbol ++ "/bestvar/"

/-- Model of `getBestVar`: fetch the best-variant endpoint, extract
`resp.data`; any error is caught by `failureCallback` (one log line, the
promise fulfils with `undefined`). -/
def getBestVar (env : NetEnv) (symbol : JSVal) : Promise :=
  pcatch
    (pthen (fetchJson (env.bestvar (jsToString symbol)) (bestVarUrl symbol))
      (fun resp =>
        match getField resp "data" with
        | Except.error e => preject e
        | Except.ok d => presolve d))
    failureCallback

/-- ASCII digit test, `[0-9]` of the patterns. -/
def isDigitCh (c : Char) : Bool := 48 ≤ c.toNat && c.toNat ≤ 57

/-- Nonzero ASCII digit test, `[1-9]` of the patterns. -/
def isNonzeroDigit (c : Char) : Bool := 49 ≤ c.toNat && c.toNat ≤ 57

/-- Greedy run of `[0-9]`: the longest digit prefix and the rest. -/
def takeDigits : List Char → List Char × List Char
  | [] => ([], [])
  | c :: cs =>
      if isDigitCh c then
        let p := takeDigits cs
        (c :: p.1, p.2)
      else ([], c :: cs)

/-- Match `[1-9][0-9]+` greedily at the head of the input, returning the
matched digits and the rest.  The trailing `[0-9]+` is matched greedily
with no backtracking: giving digits back cannot help, since the regex
continuations here (`:`, `-`, end of pattern) never accept a digit. -/
def parsePosNum : List Char → Option (List Char × List Char)
  | [] => none
  | c :: cs =>
      if isNonzeroDigit c then
        let p := takeDigits cs
        if p.1.isEmpty then none else some (c :: p.1, p.2)
      else none

/-- Match `([1-9][0-9]?|X|Y|MT)` at the head of the input, trying the
alternatives in the order the regex lists them.  The optional second digit
is taken greedily: if two digits are followed by something other than the
continuation character, backtracking to one digit leaves a digit there and
fails as well, so greedy matching is equivalent. -/
def parseChromTok : List Char → Option (List Char × List Char)
  | [] => none
  | c :: cs =>
      if isNonzeroDigit c then
        match cs with
        | c2 :: rest => if isDigitCh c2 then some ([c, c2], rest) else some ([c], cs)
        | [] => some ([c], [])
      else if c = 'X' then some ([c], cs)
      else if c = 'Y' then some ([c], cs)
      else if c = 'M' then
        match cs with
        | c2 :: rest => if c2 = 'T' then some ([c, c2], rest) else none
        | [] => none
      else none

/-- Shape of a chromosome token, the anchored `([1-9][0-9]?|X|Y|MT)`:
one nonzero digit, `X`, `Y`, two digits with the first nonzero, or `MT`. -/
def chromTokB : List Char → Bool
  | [c] => isNonzeroDigit c || c = 'X' || c = 'Y'
  | [c1, c2] => (isNonzeroDigit c1 && isDigitCh c2) || (c1 = 'M' && c2 = 'T')
  | _ => false

/-- Shape of a position, the anchored `[1-9][0-9]+`: a nonzero digit then
one or more digits. -/
def posNumB : List Char → Bool
  | c1 :: c2 :: rest => isNonzeroDigit c1 && isDigitCh c2 && rest.all isDigitCh
  | _ => false

/-- The input does not continue with a digit (it is empty or starts with a
non-digit); greedy digit runs stop exactly at such an input. -/
def stopsDigits : List Char → Bool
  | [] => true
  | c :: _ => !isDigitCh c

/-- Does the input start with the literal `chr`? -/
def startsWithChr : List Char → Bool
  | c1 :: c2 :: c3 :: _ => c1 = 'c' && c2 = 'h' && c3 = 'r'
  | _ => false

/-- Match `([1-9][0-9]?|X|Y|MT):([1-9][0-9]+)` at the head of the input,
returning (matched characters, chromosome group, position group). -/
def chromposCore (cs : List Char) : Option (List Char × List Char × List Char) :=
  match parseChromTok cs with
  | none => none
  | some (tok, rest) =>
      match rest with
      | [] => none
      | c :: rest2 =>
          if c = ':' then
            match parsePosNum rest2 with
            | none => none
            | some (pos, _) => some (tok ++ ':' :: pos, tok, pos)
          else none

/-- Attempt the pattern `(chr)?([1-9][0-9]?|X|Y|MT):([1-9][0-9]+)` at one
start position.  The optional `(chr)` group is tried first (greedy), then
the empty alternative, as a backtracking regex engine does. -/
def tryChromposAt (cs : List Char) : Option (List Char × List Char × List Char) :=
  if startsWithChr cs then
    match chromposCore (cs.drop 3) with
    | some (m, tok, pos) => some ('c' :: 'h' :: 'r' :: m, tok, pos)
    | none => chromposCore cs
  else chromposCore cs

/-- Match `([1-9][0-9]?|X|Y|MT):([1-9][0-9]+)-([1-9][0-9]+)` at the head of
the input, returning (matched characters, chromosome, start, end). -/
def rangeCore (cs : List Char) : Option (List Char × List Char × List Char × List Char) :=
  match parseChromTok cs with
  | none => none
  | some (tok, rest) =>
      match rest with
      | [] => none
      | c :: rest2 =>
          if c = ':' then
            match parsePosNum rest2 with
            | none => none
            | some (d1, rest3) =>
                match rest3 with
                | [] => none
                | c2 :: rest4 =>
                    if c2 = '-' then
                      match parsePosNum rest4 with
                      | none => none
                      | some (d2, _) => some (tok ++ ':' :: (d1 ++ '-' :: d2), tok, d1, d2)
                    else none
          else none

/-- Attempt the range pattern `(chr)?...:...-...` at one start position. -/
def tryRangeAt (cs : List Char) : Option (List Char × List Char × List Char × List Char) :=
  if startsWithChr cs then
    match rangeCore (cs.drop 3) with
    | some (m, tok, d1, d2) => some ('c' :: 'h' :: 'r' :: m, tok, d1, d2)
    | none => rangeCore cs
  else rangeCore cs

/-- Attempt `rs[1-9][0-9]+` at one start position, returning the matched
characters. -/
def tryRsAt (cs : List Char) : Option (List Char) :=
  match cs with
  | c1 :: c2 :: rest =>
      if c1 = 'r' && c2 = 's' then
        match parsePosNum rest with
        | some (d, _) => some ('r' :: 's' :: d)
        | none => none
      else none
  | _ => none

/-- Leftmost match: try the pattern at every start position from the left,
as `String.prototype.match` does for an unanchored regex. -/
def scanFirst (f : List Char → Option α) : List Char → Option α
  | [] => f []
  | c :: cs =>
      match f (c :: cs) with
      | some r => some r
      | none => scanFirst f cs

/-- Model of `searchText.match(chromposPattern)`, reduced to the fields the
code reads: the full match `[0]` and the groups `[2]` (chromosome) and
`[3]` (position). -/
def chromposMatch (s : String) : Option (String × String × String) :=
  (scanFirst tryChromposAt s.data).map
    (fun t => (String.mk t.1, String.mk t.2.1, String.mk t.2.2))

/-- Model of `searchText.match(rangePattern)`: the full match `[0]` and the
groups `[2]` (chromosome), `[3]` (start), `[4]` (end). -/
def rangeMatch (s : String) : Option (String × String × String × String) :=
  (scanFirst tryRangeAt s.data).map
    (fun t => (String.mk t.1, String.mk t.2.1, String.mk t.2.2.1, String.mk t.2.2.2))

/-- Model of `searchText.match(rsPattern)`: the full match `[0]`. -/
def rsMatch (s : String) : Option String :=
  (scanFirst tryRsAt s.data).map String.mk

/-- Decimal value of a digit run (the value JS `parseInt` computes for a
plain digit string). -/
def digitsToNat (ds : List Char) : Nat :=
  ds.foldl (fun a c => a * 10 + (c.toNat - 48)) 0

/-- Model of `parseInt(s)` for the decimal inputs reachable from this code
(regex digit groups, the `pos` field, and coerced non-numeric values; the
hexadecimal `0x` form of `parseInt` is not reachable here): skip leading
spaces, accept an optional sign,
read the leading digit run; `NaN` when no digits lead. -/
def jsParseIntStr (s : String) : JSVal :=
  match s.data.dropWhile (fun c => c = ' ') with
  | [] => JSVal.nan
  | c :: rest =>
      if c = '-' then
        let d := (takeDigits rest).1
        if d.isEmpty then JSVal.nan else JSVal.num (-(digitsToNat d : Int))
      else if c = '+' then
        let d := (takeDigits rest).1
        if d.isEmpty then JSVal.nan else JSVal.num (digitsToNat d)
      else
        let d := (takeDigits (c :: rest)).1
        if d.isEmpty then JSVal.nan else JSVal.num (digitsToNat d)

/-- Model of `parseInt(v)` on an arbitrary value: coerce to string first. -/
def jsParseInt (v : JSVal) : JSVal := jsParseIntStr (jsToString v)

/-- Replace the first occurrence of `chr` by the empty string, as
`s.replace('chr', '')` does with a string pattern. -/
def replaceFirstChr : List Char → List Char
  | 'c' :: 'h' :: 'r' :: rest => rest
  | c :: cs => c :: replaceFirstChr cs
  | [] => []

/-- Model of `v.replace('chr', '')`: only strings have `replace`; calling
it on any other value throws a TypeError. -/
def jsReplaceChr : JSVal → Except String JSVal
  | JSVal.str s => Except.ok (JSVal.str (String.mk (replaceFirstChr s.data)))
  | _ => Except.error "TypeError: replace is not a function"

/-- The object `{type: 'variant', chrom, start, end}` built by the variant
branches. -/
def mkVariant (chrom start stop : JSVal) : JSVal :=
  JSVal.obj [("type", JSVal.str "variant"), ("chrom", chrom), ("start", start), ("end", stop)]

/-- The object `{type: 'range', chrom, start, end}` built by the range
branch. -/
def mkRange (chrom start stop : JSVal) : JSVal :=
  JSVal.obj [("type", JSVal.str "range"), ("chrom", chrom), ("start", start), ("end", stop)]

/-- The rs-number branch of `parseSearchText`: one omnisearch lookup whose
result's `chrom`, `start`, `end` fields form the variant object; any error
is caught by `failureCallback`. -/
def rsLookup (env : NetEnv) (searchText : String) : Promise :=
  pcatch
    (pthen (getOmniSearch env searchText)
      (fun varData =>
        match getField varData "chrom" with
        | Except.error e => preject e
        | Except.ok chrom =>
            match getField varData "start" with
            | Except.error e => preject e
            | Except.ok start =>
                match getField varData "end" with
                | Except.error e => preject e
                | Except.ok stop => presolve (mkVariant chrom start stop)))
    failureCallback

/-- The gene branch of `parseSearchText`: omnisearch lookup, pass on the
`gene_id` field (explicitly returning `undefined` when absent), then call
`getBestVar` on whatever was passed — the code issues this second call
unconditionally — and build the variant from `pos` (parsed as integer) and
`chrom` (with the first `chr` replaced away).  The inner chain has its own
catch logging the gene id; the outer chain is capped by
`failureCallback`. -/
def geneBranch (env : NetEnv) (searchText : String) : Promise :=
  pcatch
    (pthen
      (pthen (getOmniSearch env searchText)
        (fun result =>
          match getField result "gene_id" with
          | Except.error e => preject e
          | Except.ok g =>
              match g with
              | JSVal.undef => presolve JSVal.undef
              | g => presolve g))
      (fun gene_id =>
        pcatch
          (pthen (getBestVar env gene_id)
            (fun result =>
              match getField result "pos" with
              | Except.error e => preject e
              | Except.ok posv =>
                  match getField result "chrom" with
                  | Except.error e => preject e
                  | Except.ok chromv =>
                      match jsReplaceChr chromv with
                      | Except.error e => preject e
                      | Except.ok chrom =>
                          presolve (mkVariant chrom (jsParseInt posv) (jsParseInt posv))))
          (fun _ =>
            (Except.ok JSVal.undef,
              [Event.log ("Unable to the best variant for the gene \"" ++ jsToString gene_id ++ "\"")]))))
    failureCallback

/-- Third stage of the `parseSearchText` cascade: the rs-number test, else
the gene branch. -/
def rsCheck (env : NetEnv) (searchText : String) : Promise :=
  match rsMatch searchText with
  | some m0 =>
      if searchText = m0 then rsLookup env searchText else geneBranch env searchText
  | none => geneBranch env searchText

/-- Second stage of the cascade: the range test (full-string match), else
the rs stage. -/
def rangeCheck (env : NetEnv) (searchText : String) : Promise :=
  match rangeMatch searchText with
  | some (m0, chrom, startS, endS) =>
      if searchText = m0 then
        presolve (mkRange (JSVal.str chrom) (jsParseIntStr startS) (jsParseIntStr endS))
      else rsCheck env searchText
  | none => rsCheck env searchText

/-- Model of `parseSearchText`: the chromosome-position test first (the
match must equal the whole input), then range, then rs-number, then the
gene branch. -/
def parseSearchText (env : NetEnv) (searchText : String) : Promise :=
  match chromposMatch searchText with
  | some (m0, chrom, posS) =>
      if searchText = m0 then
        presolve (mkVariant (JSVal.str chrom) (jsParseIntStr posS) (jsParseIntStr posS))
      else rangeCheck env searchText
  | none => rangeCheck env searchText

/-- Model of `String.prototype.endsWith`: the suffix's characters are a
suffix of the string's characters. -/
def jsEndsWith (s suffix : String) : Bool := suffix.data.isSuffixOf s.data

/-- Model of `retrieveBySuffix`: scan `Object.entries(point_data)` (the
fields in enumeration order) for the first key ending with the suffix;
return its value, or `null` when no key matches. -/
def retrieveBySuffix (point_data : List (String × JSVal)) (field_suffix : String) : JSVal :=
  match point_data.find? (fun item => jsEndsWith item.1 field_suffix) with
  | some m => m.2
  | none => JSVal.null

/-- Record shape consumed by `LocusZoom.Data.PheGET.annotateData`.  The
function only compares the numeric fields, so they are modelled as
rationals (only the linear order matters). -/
structure EqtlRecord where
  tss_distance : Rat
  log_pvalue : Rat
  beta : Rat
  pip : Rat

/-- The `chain.header` fields set by `getURL` and read by
`annotateData`. -/
structure ChainHeader where
  minimum_tss_distance : Rat
  maximum_tss_distance : Rat
  y_field : String

/-- Model of the inner `getValue`: the y-field of a record, `beta` by
absolute value; an unrecognized field throws. -/
def getValue (field : String) (item : EqtlRecord) : Except String Rat :=
  if field = "log_pvalue" then Except.ok item.log_pvalue
  else if field = "beta" then Except.ok (abs item.beta)
  else if field = "pip" then Except.ok item.pip
  else Except.error "Unrecognized sort field"

/-- Insert an indexed value into a descending-sorted list, after all
entries with a value at least as large.  This reproduces the stable
descending order of `Array.prototype.sort` under the comparator
`(av === bv) ? 0 : (av < bv ? 1 : -1)`: later-inserted (later-indexed)
entries go after earlier ones of equal value. -/
def insertDesc (x : Nat × Rat) : List (Nat × Rat) → List (Nat × Rat)
  | [] => [x]
  | y :: ys => if x.2 ≤ y.2 then y :: insertDesc x ys else x :: y :: ys

/-- Ranks of the scored records: sort (index, value) pairs stably in
descending value order, then give the record at original position `i` the
rank `1 +` its position in the sorted order — the effect of mutating the
shared record objects of the shallow copy with `index + 1` and returning
the original (filtered) array. -/
def annotateRanks (scored : List (EqtlRecord × Rat)) : List (EqtlRecord × Nat) :=
  let indexed := scored.enum.map (fun p => (p.1, p.2.2))
  let sorted := indexed.foldl (fun acc x => insertDesc x acc) []
  scored.enum.map (fun p => (p.2.1, sorted.findIdx (fun q => q.1 == p.1) + 1))

/-- Model of `annotateData`: keep the records whose `tss_distance` lies in
the closed interval given by the chain header, then rank them by the
header's `y_field`.  `Array.prototype.sort` invokes its comparator only
when the array has at least two elements, and `getValue` throws exactly
when the field is unrecognized (independently of its argument), so the
`Unrecognized sort field` error escapes exactly when at least two records
survive the filter; with fewer, the `forEach` still assigns rank 1. -/
def annotateData (records : List EqtlRecord) (header : ChainHeader) :
    Except String (List (EqtlRecord × Nat)) :=
  let filtered := records.filter (fun r =>
    decide (r.tss_distance ≤ header.maximum_tss_distance) &&
    decide (header.minimum_tss_distance ≤ r.tss_distance))
  if filtered.length ≤ 1 then
    Except.ok (filtered.map (fun r => (r, 1)))
  else
    match filtered.mapM (fun r => (getValue header.y_field r).map (fun v => (r, v))) with
    | Except.error e => Except.error e
    | Except.ok scored => Except.ok (annotateRanks scored)

/-- Mock network where both endpoints fail outright; used where a claim
needs some environment but the scenario never consumes a response. -/
def envReject : NetEnv :=
  ⟨fun _ => FetchResult.reject "NetworkError", fun _ => FetchResult.reject "NetworkError"⟩

/-- Mock of the C3 scenario: omnisearch answers
`{data: [{chrom: "chr19", start: 44908822, end: 44908822}]}`. -/
def envRsMock : NetEnv :=
  ⟨fun _ => FetchResult.resolve true "OK" (Except.ok (JSVal.obj
      [("data", JSVal.arr [JSVal.obj
        [("chrom", JSVal.str "chr19"),
         ("start", JSVal.num 44908822),
         ("end", JSVal.num 44908822)]])])),
   fun _ => FetchResult.reject "unused"⟩

/-- Mock of the C6 scenario: omnisearch answers
`{data: [{gene_id: "ENSG00000130203"}]}` and the best-variant endpoint
answers `{data: {pos: "44908822", chrom: "chr19"}}`. -/
def envGeneMock : NetEnv :=
  ⟨fun _ => FetchResult.resolve true "OK" (Except.ok (JSVal.obj
      [("data", JSVal.arr [JSVal.obj [("gene_id", JSVal.str "ENSG00000130203")]])])),
   fun _ => FetchResult.resolve true "OK" (Except.ok (JSVal.obj
      [("data", JSVal.obj [("pos", JSVal.str "44908822"), ("chrom", JSVal.str "chr19")])]))⟩

/-- Mock of the C1 scenario: omnisearch answers `{data: [{}]}` (a record
with no `gene_id`); the best-variant endpoint answers 404 Not Found. -/
def envNoGeneId : NetEnv :=
  ⟨fun _ => FetchResult.resolve true "OK" (Except.ok (JSVal.obj
      [("data", JSVal.arr [JSVal.obj []])])),
   fun _ => FetchResult.resolve false "Not Found" (Except.ok JSVal.undef)⟩

/-- Mock of the C7 missing-fields scenario: omnisearch succeeds but its
first record is `{}`, lacking `chrom`, `start` and `end`. -/
def envEmptyRecord : NetEnv :=
  ⟨fun _ => FetchResult.resolve true "OK" (Except.ok (JSVal.obj
      [("data", JSVal.arr [JSVal.obj []])])),
   fun _ => FetchResult.reject "unused"⟩

/-- C1: on input `zzz_not_a_gene` with omnisearch answering `{data:[{}]}`
(no `gene_id`), the gene branch nevertheless invokes `getBestVar` with the
undefined gene id — a second network call to `/api/gene/undefined/bestvar/`
— and writes two diagnostic log lines before resolving to `undefined`.
This records the code-bug divergence from the claim (and from the code's
own comments), which expect no second call and exactly one log entry. -/
theorem c1_gene_branch_issues_second_call :
    parseSearchText envNoGeneId "zzz_not_a_gene" =
      (Except.ok JSVal.undef,
        [Event.call (omniUrl "zzz_not_a_gene"),
         Event.call "/api/gene/undefined/bestvar/",
         Event.log "Error status: Error: Not Found",
         Event.log "Unable to the best variant for the gene \"undefined\""]) := rfl

/-- C2 counterexample: `chr23:100` does match the chromosome-position
pattern in full (the chromosome subpattern `[1-9][0-9]?` accepts 23), so
`parseSearchText` classifies it immediately as a variant with no network
call — it does not fall through to the gene-lookup branch. -/
theorem c2_counterexample :
    chromposMatch "chr23:100" = some ("chr23:100", "23", "100") ∧
    parseSearchText envReject "chr23:100" =
      (Except.ok (mkVariant (JSVal.str "23") (JSVal.num 100) (JSVal.num 100)), []) :=
  ⟨rfl, rfl⟩

/-- C2 amended: for every network environment, input `chr23:100` fully
matches the chromosome-position pattern (whose chromosome subpattern is
`[1-9][0-9]?`, accepting 1 through 99, not just 1 through 22), so
`parseSearchText` resolves immediately to
`Variant{chrom: "23", start: 100, end: 100}` with no network call. -/
theorem c2_amended (env : NetEnv) :
    parseSearchText env "chr23:100" =
      (Except.ok (mkVariant (JSVal.str "23") (JSVal.num 100) (JSVal.num 100)), []) := rfl

/-- C3 counterexample: with the mocked omnisearch response of the claim,
`parseSearchText "rs7412"` does not resolve to the claimed value with
`chrom = "19"`: the rs branch copies `chrom` verbatim, so the actual value
keeps the `chr` prefix. -/
theorem c3_counterexample :
    parseSearchText envRsMock "rs7412" ≠
      (Except.ok (mkVariant (JSVal.str "19") (JSVal.num 44908822) (JSVal.num 44908822)),
        [Event.call (omniUrl "rs7412")]) := by
  rw [show parseSearchText envRsMock "rs7412" =
      (Except.ok (mkVariant (JSVal.str "chr19") (JSVal.num 44908822) (JSVal.num 44908822)),
        [Event.call (omniUrl "rs7412")]) from rfl]
  simp [mkVariant]

/-- C3 amended: for `rs7412` the resolver issues exactly one omnisearch
call and, with the mocked response of the claim, resolves to
`Variant{chrom: "chr19", start: 44908822, end: 44908822}` — the `chr`
prefix is not stripped in this branch (it is stripped later, by the
consumer `parseSearch`). -/
theorem c3_amended :
    parseSearchText envRsMock "rs7412" =
      (Except.ok (mkVariant (JSVal.str "chr19") (JSVal.num 44908822) (JSVal.num 44908822)),
        [Event.call (omniUrl "rs7412")]) := rfl

/-- C6: for the gene-symbol input `APOE` with the mocked omnisearch and
best-variant responses of the claim, `parseSearchText` issues the two
lookups in sequence (the trace lists the omnisearch call and then the
best-variant call) and resolves to
`Variant{chrom: "19", start: 44908822, end: 44908822}` — `pos` parsed as
an integer and the `chr` prefix replaced away. -/
theorem c6_gene_two_lookups :
    parseSearchText envGeneMock "APOE" =
      (Except.ok (mkVariant (JSVal.str "19") (JSVal.num 44908822) (JSVal.num 44908822)),
        [Event.call (omniUrl "APOE"), Event.call "/api/gene/ENSG00000130203/bestvar/"]) := rfl

/-- C7 counterexample: a successful omnisearch lookup whose record lacks
the expected fields (`{data: [{}]}` on the rs path) is a missing-fields
behaviour under which the promise resolves to a variant object with
undefined fields — not to `undefined` — and the trace carries no log
entry, refuting the claim that every failure is absorbed into an
undefined result plus a diagnostic log line. -/
theorem c7_counterexample :
    parseSearchText envEmptyRecord "rs7412" =
      (Except.ok (mkVariant JSVal.undef JSVal.undef JSVal.undef),
        [Event.call (omniUrl "rs7412")]) ∧
    mkVariant JSVal.undef JSVal.undef JSVal.undef ≠ JSVal.undef := by
  refine ⟨rfl, ?_⟩
  simp [mkVariant]

/-- C8: `parseSearchText` is deterministic and stateless — two invocations
with the same input string and the same mocked network responses settle to
identical results and traces; the model carries no state between calls. -/
theorem c8_deterministic (env₁ env₂ : NetEnv) (s₁ s₂ : String)
    (henv : env₁ = env₂) (hs : s₁ = s₂) :
    parseSearchText env₁ s₁ = parseSearchText env₂ s₂ := by
  rw [henv, hs]

/-- Witness for C8 at a concrete input and environment. -/
theorem c8_deterministic_witness :
    parseSearchText envReject "rs7412" = parseSearchText envReject "rs7412" :=
  c8_deterministic envReject envReject "rs7412" "rs7412" rfl rfl

/-- A chain capped by `.catch(failureCallback)` always fulfils:
`failureCallback` swallows the error and returns `undefined`. -/
theorem pcatch_failureCallback_ok (p : Promise) :
    ∃ v, (pcatch p failureCallback).1 = Except.ok v := by
  obtain ⟨r, tr⟩ := p
  cases r with
  | ok v => exact ⟨v, rfl⟩
  | error e => exact ⟨JSVal.undef, rfl⟩

/-- The gene branch never rejects: its chain ends in
`.catch(failureCallback)`. -/
theorem geneBranch_ok (env : NetEnv) (s : String) :
    ∃ v, (geneBranch env s).1 = Except.ok v :=
  pcatch_failureCallback_ok _

/-- The rs branch never rejects: its chain ends in
`.catch(failureCallback)`. -/
theorem rsLookup_ok (env : NetEnv) (s : String) :
    ∃ v, (rsLookup env s).1 = Except.ok v :=
  pcatch_failureCallback_ok _

/-- The rs stage of the cascade never rejects. -/
theorem rsCheck_ok (env : NetEnv) (s : String) :
    ∃ v, (rsCheck env s).1 = Except.ok v := by
  unfold rsCheck
  split
  · split
    · exact rsLookup_ok env s
    · exact geneBranch_ok env s
  · exact geneBranch_ok env s

/-- The range stage of the cascade never rejects. -/
theorem rangeCheck_ok (env : NetEnv) (s : String) :
    ∃ v, (rangeCheck env s).1 = Except.ok v := by
  unfold rangeCheck
  split
  · split
    · exact ⟨_, rfl⟩
    · exact rsCheck_ok env s
  · exact rsCheck_ok env s

/-- C7 amended: for every input string and every behaviour of the two
mocked lookups, the promise returned by `parseSearchText` fulfils — it
never rejects, so no structured error propagates to the caller. -/
theorem c7_never_rejects (env : NetEnv) (s : String) :
    ∃ v, (parseSearchText env s).1 = Except.ok v := by
  unfold parseSearchText
  split
  · split
    · exact ⟨_, rfl⟩
    · exact rangeCheck_ok env s
  · exact rangeCheck_ok env s

/-- C9: `retrieveBySuffix` returns the value bound to the first key in
enumeration order that ends with the given suffix, and returns `null`
(not `undefined`, and without throwing — the model is a total function)
when no key ends with the suffix. -/
theorem c9_retrieveBySuffix_spec (sfx : String) :
    (∀ pre (k : String) (v : JSVal) post,
        (∀ kv ∈ pre, jsEndsWith (kv : String × JSVal).1 sfx = false) →
        jsEndsWith k sfx = true →
        retrieveBySuffix (pre ++ (k, v) :: post) sfx = v)
    ∧ (∀ pd, (∀ kv ∈ pd, jsEndsWith (kv : String × JSVal).1 sfx = false) →
        retrieveBySuffix pd sfx = JSVal.null) := by
  constructor
  · intro pre k v post hpre hk
    induction pre with
    | nil =>
        unfold retrieveBySuffix
        rw [List.nil_append, List.find?_cons_of_pos _ (by simpa using hk)]
    | cons kv pre ih =>
        have h1 : jsEndsWith kv.1 sfx = false := hpre kv (by simp)
        have h2 : ∀ kv' ∈ pre, jsEndsWith (kv' : String × JSVal).1 sfx = false :=
          fun kv' h => hpre kv' (by simp [h])
        unfold retrieveBySuffix
        rw [List.cons_append, List.find?_cons_of_neg _ (by simp [h1])]
        exact ih h2
  · intro pd hpd
    unfold retrieveBySuffix
    rw [List.find?_eq_none.mpr (fun kv hkv => by simp [hpd kv hkv])]

/-- Witness for C9: a key with the suffix is retrieved, a miss yields
`null`. -/
theorem c9_retrieveBySuffix_witness :
    retrieveBySuffix [("phewas:beta", JSVal.num 3)] ":beta" = JSVal.num 3 ∧
    retrieveBySuffix [("phewas:beta", JSVal.num 3)] ":pip" = JSVal.null :=
  ⟨(c9_retrieveBySuffix_spec ":beta").1 [] "phewas:beta" (JSVal.num 3) [] (by simp) (by decide),
   (c9_retrieveBySuffix_spec ":pip").2 [("phewas:beta", JSVal.num 3)] (by decide)⟩

theorem isDigitCh_of_nonzero {c : Char} (h : isNonzeroDigit c = true) : isDigitCh c = true := by
  unfold isNonzeroDigit at h
  unfold isDigitCh
  simp only [Bool.and_eq_true, decide_eq_true_eq] at h ⊢
  omega

theorem nonzero_ne {c : Char} (h : isNonzeroDigit c = true) {d : Char}
    (hd : isNonzeroDigit d = false) : ¬ c = d := by
  intro he
  rw [he, hd] at h
  exact Bool.noConfusion h

theorem takeDigits_split (ds rest : List Char) (hds : ds.all isDigitCh = true)
    (hrest : stopsDigits rest = true) : takeDigits (ds ++ rest) = (ds, rest) := by
  induction ds with
  | nil =>
      cases rest with
      | nil => rfl
      | cons c cs =>
          have hc : isDigitCh c = false := by
            simpa [stopsDigits] using hrest
          simp [takeDigits, hc]
  | cons d ds ih =>
      rw [List.all_cons, Bool.and_eq_true] at hds
      simp [takeDigits, hds.1, ih hds.2]

theorem parsePosNum_split (pos rest : List Char) (hpos : posNumB pos = true)
    (hrest : stopsDigits rest = true) : parsePosNum (pos ++ rest) = some (pos, rest) := by
  cases pos with
  | nil => simp [posNumB] at hpos
  | cons c1 t =>
      cases t with
      | nil => simp [posNumB] at hpos
      | cons c2 ds =>
          simp only [posNumB, Bool.and_eq_true] at hpos
          obtain ⟨⟨h1, h2⟩, h3⟩ := hpos
          have hall : (c2 :: ds).all isDigitCh = true := by
            simp [List.all_cons, h2, h3]
          have ht : takeDigits ((c2 :: ds) ++ rest) = (c2 :: ds, rest) :=
            takeDigits_split _ _ hall hrest
          simp only [List.cons_append] at ht
          simp [parsePosNum, h1, ht]

theorem parsePosNum_exact (pos : List Char) (hpos : posNumB pos = true) :
    parsePosNum pos = some (pos, []) := by
  have h := parsePosNum_split pos [] hpos rfl
  simpa using h

theorem parseChromTok_colon (tok rest : List Char) (htok : chromTokB tok = true) :
    parseChromTok (tok ++ ':' :: rest) = some (tok, ':' :: rest) := by
  cases tok with
  | nil => simp [chromTokB] at htok
  | cons c1 t =>
      cases t with
      | nil =>
          simp only [chromTokB, Bool.or_eq_true, decide_eq_true_eq] at htok
          rcases htok with (h | h) | h
          · simp [parseChromTok, h, show isDigitCh ':' = false from by decide]
          · subst h
            simp [parseChromTok, show isNonzeroDigit 'X' = false from by decide]
          · subst h
            simp [parseChromTok,
              show isNonzeroDigit 'Y' = false from by decide,
              show ('Y' : Char) ≠ 'X' from by decide]
      | cons c2 t2 =>
          cases t2 with
          | nil =>
              simp only [chromTokB, Bool.or_eq_true, Bool.and_eq_true, decide_eq_true_eq] at htok
              rcases htok with ⟨h1, h2⟩ | ⟨h1, h2⟩
              · simp [parseChromTok, h1, h2]
              · subst h1; subst h2
                simp [parseChromTok,
                  show isNonzeroDigit 'M' = false from by decide,
                  show ('M' : Char) ≠ 'X' from by decide,
                  show ('M' : Char) ≠ 'Y' from by decide]
          | cons c3 t3 => simp [chromTokB] at htok

theorem chromposCore_split (tok pos rest2 : List Char) (htok : chromTokB tok = true)
    (hpos : posNumB pos = true) (hrest : stopsDigits rest2 = true) :
    chromposCore (tok ++ ':' :: (pos ++ rest2)) = some (tok ++ ':' :: pos, tok, pos) := by
  simp [chromposCore, parseChromTok_colon _ _ htok, parsePosNum_split _ _ hpos hrest]

theorem startsWithChr_tok (tok l : List Char) (htok : chromTokB tok = true) :
    startsWithChr (tok ++ ':' :: l) = false := by
  cases tok with
  | nil => simp [chromTokB] at htok
  | cons c1 t =>
      cases t with
      | nil =>
          cases l with
          | nil => rfl
          | cons x xs => simp [startsWithChr, show (':' : Char) ≠ 'h' from by decide]
      | cons c2 t2 =>
          cases t2 with
          | nil => simp [startsWithChr, show (':' : Char) ≠ 'r' from by decide]
          | cons c3 t3 => simp [chromTokB] at htok

theorem tryChromposAt_split (pre : Bool) (tok pos rest2 : List Char)
    (htok : chromTokB tok = true) (hpos : posNumB pos = true)
    (hrest : stopsDigits rest2 = true) :
    tryChromposAt ((if pre then ['c', 'h', 'r'] else []) ++ (tok ++ ':' :: (pos ++ rest2))) =
      some ((if pre then ['c', 'h', 'r'] else []) ++ (tok ++ ':' :: pos), tok, pos) := by
  cases pre with
  | true =>
      simp only [show (if (true : Bool) then ['c', 'h', 'r'] else ([] : List Char)) = ['c', 'h', 'r'] from rfl,
        List.cons_append, List.nil_append]
      rw [tryChromposAt]
      rw [if_pos (by simp [startsWithChr])]
      simp [List.drop, chromposCore_split tok pos rest2 htok hpos hrest]
  | false =>
      simp only [show (if (false : Bool) then ['c', 'h', 'r'] else ([] : List Char)) = [] from rfl,
        List.nil_append]
      rw [tryChromposAt]
      rw [if_neg (by simp [startsWithChr_tok tok (pos ++ rest2) htok])]
      exact chromposCore_split tok pos rest2 htok hpos hrest

theorem rangeCore_split (tok d1 d2 : List Char) (htok : chromTokB tok = true)
    (h1 : posNumB d1 = true) (h2 : posNumB d2 = true) :
    rangeCore (tok ++ ':' :: (d1 ++ '-' :: d2)) =
      some (tok ++ ':' :: (d1 ++ '-' :: d2), tok, d1, d2) := by
  simp [rangeCore, parseChromTok_colon _ _ htok,
    parsePosNum_split d1 ('-' :: d2) h1 rfl, parsePosNum_exact d2 h2]

theorem tryRangeAt_split (pre : Bool) (tok d1 d2 : List Char)
    (htok : chromTokB tok = true) (h1 : posNumB d1 = true) (h2 : posNumB d2 = true) :
    tryRangeAt ((if pre then ['c', 'h', 'r'] else []) ++ (tok ++ ':' :: (d1 ++ '-' :: d2))) =
      some ((if pre then ['c', 'h', 'r'] else []) ++ (tok ++ ':' :: (d1 ++ '-' :: d2)),
        tok, d1, d2) := by
  cases pre with
  | true =>
      simp only [show (if (true : Bool) then ['c', 'h', 'r'] else ([] : List Char)) = ['c', 'h', 'r'] from rfl,
        List.cons_append, List.nil_append]
      rw [tryRangeAt]
      rw [if_pos (by simp [startsWithChr])]
      simp [List.drop, rangeCore_split tok d1 d2 htok h1 h2]
  | false =>
      simp only [show (if (false : Bool) then ['c', 'h', 'r'] else ([] : List Char)) = [] from rfl,
        List.nil_append]
      rw [tryRangeAt]
      rw [if_neg (by simp [startsWithChr_tok tok (d1 ++ '-' :: d2) htok])]
      exact rangeCore_split tok d1 d2 htok h1 h2

theorem scanFirst_of_head {α : Type} (f : List Char → Option α) (cs : List Char) (r : α)
    (h : f cs = some r) : scanFirst f cs = some r := by
  cases cs with
  | nil => simpa [scanFirst] using h
  | cons c cs => simp [scanFirst, h]

theorem jsParseIntStr_digits (pos : List Char) (hpos : posNumB pos = true) :
    jsParseIntStr (String.mk pos) = JSVal.num (digitsToNat pos) := by
  cases pos with
  | nil => simp [posNumB] at hpos
  | cons c1 t =>
      cases t with
      | nil => simp [posNumB] at hpos
      | cons c2 ds =>
          simp only [posNumB, Bool.and_eq_true] at hpos
          obtain ⟨⟨h1, h2⟩, h3⟩ := hpos
          have hd : isDigitCh c1 = true := isDigitCh_of_nonzero h1
          have hall : (c1 :: c2 :: ds).all isDigitCh = true := by
            simp [List.all_cons, hd, h2, h3]
          have htake : takeDigits (c1 :: c2 :: ds) = (c1 :: c2 :: ds, []) := by
            have h := takeDigits_split (c1 :: c2 :: ds) [] hall rfl
            simpa using h
          rw [jsParseIntStr]
          simp only [show (String.mk (c1 :: c2 :: ds)).data = c1 :: c2 :: ds from rfl]
          rw [List.dropWhile_cons]
          rw [if_neg (by simpa using nonzero_ne h1 (show isNonzeroDigit ' ' = false from by decide))]
          have hmi : ¬ c1 = '-' := nonzero_ne h1 (show isNonzeroDigit '-' = false from by decide)
          have hpl : ¬ c1 = '+' := nonzero_ne h1 (show isNonzeroDigit '+' = false from by decide)
          simp [hmi, hpl, htake]

/-- C4: every input that fully matches the chromosome-position pattern
`(chr)?([1-9][0-9]?|X|Y|MT):[1-9][0-9]+` (given here by its decomposition
into optional `chr` prefix, chromosome token and position digits) resolves
immediately — the trace is empty, so no network call is made — to the
variant object whose `chrom` is the chromosome token and whose `start` and
`end` both equal the parsed position integer. -/
theorem c4_chrompos_immediate (env : NetEnv) (pre : Bool) (tok pos : List Char)
    (htok : chromTokB tok = true) (hpos : posNumB pos = true) :
    parseSearchText env
        (String.mk ((if pre then ['c', 'h', 'r'] else []) ++ (tok ++ ':' :: pos))) =
      (Except.ok (mkVariant (JSVal.str (String.mk tok))
        (JSVal.num (digitsToNat pos)) (JSVal.num (digitsToNat pos))), []) := by
  have htry := tryChromposAt_split pre tok pos [] htok hpos rfl
  rw [List.append_nil] at htry
  have hscan := scanFirst_of_head _ _ _ htry
  have hmatch : chromposMatch
      (String.mk ((if pre then ['c', 'h', 'r'] else []) ++ (tok ++ ':' :: pos))) =
      some (String.mk ((if pre then ['c', 'h', 'r'] else []) ++ (tok ++ ':' :: pos)),
        String.mk tok, String.mk pos) := by
    rw [chromposMatch]
    rw [show (String.mk ((if pre then ['c', 'h', 'r'] else []) ++ (tok ++ ':' :: pos))).data
        = (if pre then ['c', 'h', 'r'] else []) ++ (tok ++ ':' :: pos) from rfl]
    rw [hscan]
    rfl
  rw [parseSearchText, hmatch]
  simp [presolve, jsParseIntStr_digits pos hpos]

/-- Witness for C4 at the input `chr7:101258000`. -/
theorem c4_witness :
    chromTokB ['7'] = true ∧
    posNumB ['1', '0', '1', '2', '5', '8', '0', '0', '0'] = true ∧
    parseSearchText envReject "chr7:101258000" =
      (Except.ok (mkVariant (JSVal.str "7")
        (JSVal.num 101258000) (JSVal.num 101258000)), []) :=
  ⟨by decide, by decide,
    c4_chrompos_immediate envReject true ['7'] ['1', '0', '1', '2', '5', '8', '0', '0', '0']
      (by decide) (by decide)⟩

/-- C5: every input that fully matches the chromosome-range pattern
`(chr)?([1-9][0-9]?|X|Y|MT):[1-9][0-9]+-[1-9][0-9]+` resolves immediately
(no network call) to the range object carrying the parsed chromosome,
start and end exactly; moreover the chromosome-position pattern, checked
first, matches only the proper prefix ending before `-`, which differs
from the whole input, so the full-string equality test of the position
branch fails and the input is never classified as a position. -/
theorem c5_range_immediate (env : NetEnv) (pre : Bool) (tok d1 d2 : List Char)
    (htok : chromTokB tok = true) (h1 : posNumB d1 = true) (h2 : posNumB d2 = true) :
    parseSearchText env
        (String.mk ((if pre then ['c', 'h', 'r'] else []) ++ (tok ++ ':' :: (d1 ++ '-' :: d2)))) =
      (Except.ok (mkRange (JSVal.str (String.mk tok))
        (JSVal.num (digitsToNat d1)) (JSVal.num (digitsToNat d2))), []) ∧
    chromposMatch
        (String.mk ((if pre then ['c', 'h', 'r'] else []) ++ (tok ++ ':' :: (d1 ++ '-' :: d2)))) =
      some (String.mk ((if pre then ['c', 'h', 'r'] else []) ++ (tok ++ ':' :: d1)),
        String.mk tok, String.mk d1) ∧
    String.mk ((if pre then ['c', 'h', 'r'] else []) ++ (tok ++ ':' :: (d1 ++ '-' :: d2))) ≠
      String.mk ((if pre then ['c', 'h', 'r'] else []) ++ (tok ++ ':' :: d1)) := by
  have htry := tryChromposAt_split pre tok d1 ('-' :: d2) htok h1 rfl
  have hscan := scanFirst_of_head _ _ _ htry
  have hmatch : chromposMatch
      (String.mk ((if pre then ['c', 'h', 'r'] else []) ++ (tok ++ ':' :: (d1 ++ '-' :: d2)))) =
      some (String.mk ((if pre then ['c', 'h', 'r'] else []) ++ (tok ++ ':' :: d1)),
        String.mk tok, String.mk d1) := by
    rw [chromposMatch]
    rw [show (String.mk ((if pre then ['c', 'h', 'r'] else []) ++ (tok ++ ':' :: (d1 ++ '-' :: d2)))).data
        = (if pre then ['c', 'h', 'r'] else []) ++ (tok ++ ':' :: (d1 ++ '-' :: d2)) from rfl]
    rw [hscan]
    rfl
  have hne : String.mk ((if pre then ['c', 'h', 'r'] else []) ++ (tok ++ ':' :: (d1 ++ '-' :: d2))) ≠
      String.mk ((if pre then ['c', 'h', 'r'] else []) ++ (tok ++ ':' :: d1)) := by
    intro he
    have hl : ((if pre then ['c', 'h', 'r'] else []) ++ (tok ++ ':' :: (d1 ++ '-' :: d2))).length
        = ((if pre then ['c', 'h', 'r'] else []) ++ (tok ++ ':' :: d1)).length := by
      rw [show ((if pre then ['c', 'h', 'r'] else []) ++ (tok ++ ':' :: (d1 ++ '-' :: d2)))
          = (String.mk ((if pre then ['c', 'h', 'r'] else []) ++ (tok ++ ':' :: (d1 ++ '-' :: d2)))).data from rfl]
      rw [he]
    simp [List.length_append] at hl
  refine ⟨?_, hmatch, hne⟩
  have hrtry := tryRangeAt_split pre tok d1 d2 htok h1 h2
  have hrscan := scanFirst_of_head _ _ _ hrtry
  have hrmatch : rangeMatch
      (String.mk ((if pre then ['c', 'h', 'r'] else []) ++ (tok ++ ':' :: (d1 ++ '-' :: d2)))) =
      some (String.mk ((if pre then ['c', 'h', 'r'] else []) ++ (tok ++ ':' :: (d1 ++ '-' :: d2))),
        String.mk tok, String.mk d1, String.mk d2) := by
    rw [rangeMatch]
    rw [show (String.mk ((if pre then ['c', 'h', 'r'] else []) ++ (tok ++ ':' :: (d1 ++ '-' :: d2)))).data
        = (if pre then ['c', 'h', 'r'] else []) ++ (tok ++ ':' :: (d1 ++ '-' :: d2)) from rfl]
    rw [hrscan]
    rfl
  rw [parseSearchText, hmatch]
  simp only []
  rw [if_neg hne]
  rw [rangeCheck, hrmatch]
  simp [presolve, jsParseIntStr_digits d1 h1, jsParseIntStr_digits d2 h2]

/-- Witness for C5 at the input `2:1000-2000`. -/
theorem c5_witness :
    chromTokB ['2'] = true ∧
    posNumB ['1', '0', '0', '0'] = true ∧
    posNumB ['2', '0', '0', '0'] = true ∧
    (parseSearchText envReject "2:1000-2000" =
        (Except.ok (mkRange (JSVal.str "2") (JSVal.num 1000) (JSVal.num 2000)), []) ∧
      chromposMatch "2:1000-2000" = some ("2:1000", "2", "1000") ∧
      "2:1000-2000" ≠ "2:1000") :=
  ⟨by decide, by decide, by decide,
    c5_range_immediate envReject false ['2'] ['1', '0', '0', '0'] ['2', '0', '0', '0']
      (by decide) (by decide) (by decide)⟩

theorem insertDesc_length (x : Nat × Rat) (l : List (Nat × Rat)) :
    (insertDesc x l).length = l.length + 1 := by
  induction l with
  | nil => rfl
  | cons y ys ih =>
      by_cases h : x.2 ≤ y.2 <;> simp [insertDesc, h, ih]

theorem mem_insertDesc {x y : Nat × Rat} {l : List (Nat × Rat)} :
    y ∈ insertDesc x l ↔ y = x ∨ y ∈ l := by
  induction l with
  | nil => simp [insertDesc]
  | cons z zs ih =>
      by_cases h : x.2 ≤ z.2 <;> simp [insertDesc, h, ih] <;> tauto

theorem insertDesc_sorted {x : Nat × Rat} {l : List (Nat × Rat)}
    (hl : l.Pairwise (fun a b => b.2 ≤ a.2)) :
    (insertDesc x l).Pairwise (fun a b => b.2 ≤ a.2) := by
  induction l with
  | nil => simp [insertDesc]
  | cons y ys ih =>
      rw [List.pairwise_cons] at hl
      obtain ⟨hy, hys⟩ := hl
      by_cases h : x.2 ≤ y.2
      · rw [insertDesc, if_pos h, List.pairwise_cons]
        refine ⟨?_, ih hys⟩
        intro z hz
        rcases mem_insertDesc.mp hz with rfl | hz
        · exact h
        · exact hy z hz
      · rw [insertDesc, if_neg h, List.pairwise_cons]
        refine ⟨?_, List.Pairwise.cons hy hys⟩
        intro z hz
        rcases List.mem_cons.mp hz with rfl | hz
        · exact le_of_lt (lt_of_not_le h)
        · exact le_trans (hy z hz) (le_of_lt (lt_of_not_le h))

theorem foldl_insertDesc_sorted (l acc : List (Nat × Rat))
    (hacc : acc.Pairwise (fun a b => b.2 ≤ a.2)) :
    (l.foldl (fun a x => insertDesc x a) acc).Pairwise (fun a b => b.2 ≤ a.2) := by
  induction l generalizing acc with
  | nil => simpa using hacc
  | cons x xs ih => exact ih _ (insertDesc_sorted hacc)

theorem mem_foldl_insertDesc (y : Nat × Rat) (l acc : List (Nat × Rat)) :
    y ∈ l.foldl (fun a x => insertDesc x a) acc ↔ y ∈ acc ∨ y ∈ l := by
  induction l generalizing acc with
  | nil => simp
  | cons x xs ih =>
      rw [List.foldl_cons, ih, mem_insertDesc]
      simp [List.mem_cons]
      tauto

theorem foldl_insertDesc_length (l acc : List (Nat × Rat)) :
    (l.foldl (fun a x => insertDesc x a) acc).length = acc.length + l.length := by
  induction l generalizing acc with
  | nil => simp
  | cons x xs ih =>
      rw [List.foldl_cons, ih, insertDesc_length, List.length_cons]
      omega

theorem mapM_pair_ok {α β : Type} (g : α → Except String β) (l : List α)
    (scored : List (α × β))
    (h : l.mapM (fun r => (g r).map (fun v => (r, v))) = Except.ok scored) :
    scored.map Prod.fst = l ∧ ∀ p ∈ scored, g p.1 = Except.ok p.2 := by
  induction l generalizing scored with
  | nil =>
      rw [List.mapM_nil] at h
      have : scored = [] := by
        cases scored with
        | nil => rfl
        | cons p ps => exact absurd h (by simp [pure, Except.pure])
      subst this
      simp
  | cons r rs ih =>
      rw [List.mapM_cons] at h
      cases hg : g r with
      | error e =>
          rw [hg] at h
          simp [Except.map, Except.bind, bind] at h
      | ok v =>
          rw [hg] at h
          cases hrest : rs.mapM (fun r => (g r).map (fun v => (r, v))) with
          | error e =>
              rw [hrest] at h
              simp [Except.map, Except.bind, bind, pure, Except.pure] at h
          | ok rest =>
              rw [hrest] at h
              simp [Except.map, Except.bind, bind, pure, Except.pure] at h
              subst h
              obtain ⟨h1, h2⟩ := ih rest hrest
              constructor
              · simp [h1]
              · intro p hp
                rcases List.mem_cons.mp hp with rfl | hp
                · simpa using hg
                · exact h2 p hp

theorem mapM_pair_error {α β : Type} (g : α → Except String β) (r : α) (rs : List α)
    (e : String) (hg : g r = Except.error e) :
    (r :: rs).mapM (fun r => (g r).map (fun v => (r, v))) = Except.error e := by
  rw [List.mapM_cons, hg]
  simp [Except.map, Except.bind, bind]

theorem indexed_getElem (scored : List (EqtlRecord × Rat)) (i : Nat)
    (hi : i < (scored.enum.map (fun p => (p.1, p.2.2))).length) (hi2 : i < scored.length) :
    (scored.enum.map (fun p => (p.1, p.2.2)))[i] = (i, scored[i].2) := by
  rw [List.getElem_map]
  rw [List.getElem_enum]

theorem mem_indexed (scored : List (EqtlRecord × Rat)) (y : Nat × Rat) :
    y ∈ scored.enum.map (fun p => (p.1, p.2.2)) ↔
      ∃ hk : y.1 < scored.length, scored[y.1].2 = y.2 := by
  constructor
  · rintro hy
    rcases List.mem_map.mp hy with ⟨p, hp, hpy⟩
    rw [List.mem_enum_iff_getElem?] at hp
    rw [List.getElem?_eq_some] at hp
    obtain ⟨hlt, hget⟩ := hp
    subst hpy
    exact ⟨hlt, by rw [hget]⟩
  · rintro ⟨hk, hv⟩
    refine List.mem_map.mpr ⟨(y.1, scored[y.1]), ?_, by simp [hv]⟩
    rw [List.mem_enum_iff_getElem?]
    exact List.getElem?_eq_getElem hk

theorem annotateData_eq_small (records : List EqtlRecord) (header : ChainHeader)
    (h : (records.filter (fun r =>
        decide (r.tss_distance ≤ header.maximum_tss_distance) &&
        decide (header.minimum_tss_distance ≤ r.tss_distance))).length ≤ 1) :
    annotateData records header =
      Except.ok ((records.filter (fun r =>
        decide (r.tss_distance ≤ header.maximum_tss_distance) &&
        decide (header.minimum_tss_distance ≤ r.tss_distance))).map (fun r => (r, 1))) := by
  simp only [annotateData]
  rw [if_pos h]

theorem annotateData_eq_big (records : List EqtlRecord) (header : ChainHeader)
    (scored : List (EqtlRecord × Rat))
    (h : ¬ (records.filter (fun r =>
        decide (r.tss_distance ≤ header.maximum_tss_distance) &&
        decide (header.minimum_tss_distance ≤ r.tss_distance))).length ≤ 1)
    (hm : (records.filter (fun r =>
        decide (r.tss_distance ≤ header.maximum_tss_distance) &&
        decide (header.minimum_tss_distance ≤ r.tss_distance))).mapM
          (fun r => (getValue header.y_field r).map (fun v => (r, v))) = Except.ok scored) :
    annotateData records header = Except.ok (annotateRanks scored) := by
  simp only [annotateData]
  rw [if_neg h, hm]

theorem annotateRanks_map_fst (scored : List (EqtlRecord × Rat)) :
    (annotateRanks scored).map Prod.fst = scored.map Prod.fst := by
  simp only [annotateRanks, List.map_map]
  have h : (Prod.fst ∘ fun p : Nat × (EqtlRecord × Rat) =>
      (p.2.1, ((scored.enum.map (fun p => (p.1, p.2.2))).foldl
        (fun a x => insertDesc x a) []).findIdx (fun q => q.1 == p.1) + 1)) =
      (Prod.fst ∘ Prod.snd) := by
    funext p
    rfl
  rw [h, show (Prod.fst ∘ (Prod.snd : Nat × (EqtlRecord × Rat) → EqtlRecord × Rat)) =
      fun p => Prod.fst (Prod.snd p) from rfl]
  rw [show (scored.enum.map fun p => Prod.fst (Prod.snd p)) =
      (scored.enum.map Prod.snd).map Prod.fst from by rw [List.map_map]; rfl]
  rw [List.enum_map_snd]

theorem annotateData_ok_filter (records : List EqtlRecord) (header : ChainHeader)
    (out : List (EqtlRecord × Nat))
    (h : annotateData records header = Except.ok out) :
    out.map Prod.fst = records.filter (fun r =>
      decide (r.tss_distance ≤ header.maximum_tss_distance) &&
      decide (header.minimum_tss_distance ≤ r.tss_distance)) := by
  by_cases hlen : (records.filter (fun r =>
      decide (r.tss_distance ≤ header.maximum_tss_distance) &&
      decide (header.minimum_tss_distance ≤ r.tss_distance))).length ≤ 1
  · rw [annotateData_eq_small records header hlen] at h
    have hout := Except.ok.inj h
    subst hout
    rw [List.map_map]
    rw [show (Prod.fst ∘ fun r : EqtlRecord => (r, (1 : Nat))) = fun r => r from rfl]
    rw [List.map_id']
  · cases hm : (records.filter (fun r =>
        decide (r.tss_distance ≤ header.maximum_tss_distance) &&
        decide (header.minimum_tss_distance ≤ r.tss_distance))).mapM
          (fun r => (getValue header.y_field r).map (fun v => (r, v))) with
    | error e =>
        rw [show annotateData records header = Except.error e from by
          simp only [annotateData]; rw [if_neg hlen, hm]] at h
        exact absurd h (by simp)
    | ok scored =>
        rw [annotateData_eq_big records header scored hlen hm] at h
        have hout := Except.ok.inj h
        subst hout
        rw [annotateRanks_map_fst]
        exact (mapM_pair_ok _ _ _ hm).1

theorem annotateData_invalid_field (records : List EqtlRecord) (header : ChainHeader)
    (hf : header.y_field ∉ (["log_pvalue", "beta", "pip"] : List String))
    (hlen : 2 ≤ (records.filter (fun r =>
      decide (r.tss_distance ≤ header.maximum_tss_distance) &&
      decide (header.minimum_tss_distance ≤ r.tss_distance))).length) :
    annotateData records header = Except.error "Unrecognized sort field" := by
  simp only [List.mem_cons, List.mem_singleton, not_or] at hf
  obtain ⟨h1, h2, h3, _⟩ := hf
  have hval : ∀ r, getValue header.y_field r = Except.error "Unrecognized sort field" := by
    intro r
    rw [getValue, if_neg h1, if_neg h2, if_neg h3]
  cases hF : records.filter (fun r =>
      decide (r.tss_distance ≤ header.maximum_tss_distance) &&
      decide (header.minimum_tss_distance ≤ r.tss_distance)) with
  | nil => rw [hF] at hlen; simp at hlen
  | cons r rs =>
      have hm := mapM_pair_error (getValue header.y_field) r rs _ (hval r)
      simp only [annotateData]
      rw [hF] at hlen ⊢
      rw [if_neg (by omega), hm]

theorem annotateData_rank_one_exists (records : List EqtlRecord) (header : ChainHeader)
    (out : List (EqtlRecord × Nat))
    (h : annotateData records header = Except.ok out) (hne : out ≠ []) :
    ∃ p ∈ out, p.2 = 1 := by
  by_cases hlen : (records.filter (fun r =>
      decide (r.tss_distance ≤ header.maximum_tss_distance) &&
      decide (header.minimum_tss_distance ≤ r.tss_distance))).length ≤ 1
  · rw [annotateData_eq_small records header hlen] at h
    obtain rfl := (Except.ok.inj h)
    cases hF : records.filter (fun r =>
        decide (r.tss_distance ≤ header.maximum_tss_distance) &&
        decide (header.minimum_tss_distance ≤ r.tss_distance)) with
    | nil => rw [hF] at hne; simp at hne
    | cons r rs =>
        exact ⟨(r, 1), by simp, rfl⟩
  · cases hm : (records.filter (fun r =>
        decide (r.tss_distance ≤ header.maximum_tss_distance) &&
        decide (header.minimum_tss_distance ≤ r.tss_distance))).mapM
          (fun r => (getValue header.y_field r).map (fun v => (r, v))) with
    | error e =>
        rw [show annotateData records header = Except.error e from by
          simp only [annotateData]; rw [if_neg hlen, hm]] at h
        exact absurd h (by simp)
    | ok scored =>
        rw [annotateData_eq_big records header scored hlen hm] at h
        obtain rfl := (Except.ok.inj h)
        have hslen2 : 2 ≤ scored.length := by
          have h1 := congrArg List.length (mapM_pair_ok _ _ _ hm).1
          rw [List.length_map] at h1
          omega
        have hsortlen : ((scored.enum.map (fun p => (p.1, p.2.2))).foldl
            (fun a x => insertDesc x a) []).length = scored.length := by
          rw [foldl_insertDesc_length, List.length_map, List.enum_length]
          simp
        cases hs : (scored.enum.map (fun p => (p.1, p.2.2))).foldl
            (fun a x => insertDesc x a) [] with
        | nil =>
            rw [hs] at hsortlen
            simp at hsortlen
            omega
        | cons hd tl =>
            have hhd : hd ∈ scored.enum.map (fun p => (p.1, p.2.2)) := by
              have hmem : hd ∈ (scored.enum.map (fun p => (p.1, p.2.2))).foldl
                  (fun a x => insertDesc x a) [] := by
                rw [hs]; simp
              rcases (mem_foldl_insertDesc hd _ []).mp hmem with hc | hc
              · simp at hc
              · exact hc
            obtain ⟨hk, hv⟩ := (mem_indexed scored hd).mp hhd
            have hio : hd.1 < (annotateRanks scored).length := by
              simp only [annotateRanks, List.length_map, List.enum_length]
              exact hk
            refine ⟨(annotateRanks scored)[hd.1], List.getElem_mem hio, ?_⟩
            have hval : (annotateRanks scored)[hd.1] =
                (scored[hd.1].1, ((scored.enum.map (fun p => (p.1, p.2.2))).foldl
                  (fun a x => insertDesc x a) []).findIdx (fun q => q.1 == hd.1) + 1) := by
              simp only [annotateRanks]
              rw [List.getElem_map, List.getElem_enum]
            rw [hval, hs]
            rw [List.findIdx_cons]
            have : (hd.1 == hd.1) = true := by simp
            rw [this]
            rfl

theorem annotateData_rank_one_max (records : List EqtlRecord) (header : ChainHeader)
    (out : List (EqtlRecord × Nat))
    (h : annotateData records header = Except.ok out)
    (p : EqtlRecord × Nat) (hp : p ∈ out) (hrank : p.2 = 1)
    (q : EqtlRecord × Nat) (hq : q ∈ out)
    (vp vq : Rat)
    (hgp : getValue header.y_field p.1 = Except.ok vp)
    (hgq : getValue header.y_field q.1 = Except.ok vq) :
    vq ≤ vp := by
  by_cases hlen : (records.filter (fun r =>
      decide (r.tss_distance ≤ header.maximum_tss_distance) &&
      decide (header.minimum_tss_distance ≤ r.tss_distance))).length ≤ 1
  · rw [annotateData_eq_small records header hlen] at h
    obtain rfl := (Except.ok.inj h)
    cases hF : records.filter (fun r =>
        decide (r.tss_distance ≤ header.maximum_tss_distance) &&
        decide (header.minimum_tss_distance ≤ r.tss_distance)) with
    | nil =>
        rw [hF] at hp
        simp at hp
    | cons r rs =>
        rw [hF] at hp hq hlen
        have hrs : rs = [] := by
          rw [List.length_cons] at hlen
          exact List.length_eq_zero.mp (by omega)
        subst hrs
        simp only [List.map_cons, List.map_nil, List.mem_singleton] at hp hq
        subst hp
        subst hq
        rw [hgq] at hgp
        exact le_of_eq (Except.ok.inj hgp)
  · cases hm : (records.filter (fun r =>
        decide (r.tss_distance ≤ header.maximum_tss_distance) &&
        decide (header.minimum_tss_distance ≤ r.tss_distance))).mapM
          (fun r => (getValue header.y_field r).map (fun v => (r, v))) with
    | error e =>
        rw [show annotateData records header = Except.error e from by
          simp only [annotateData]; rw [if_neg hlen, hm]] at h
        exact absurd h (by simp)
    | ok scored =>
        rw [annotateData_eq_big records header scored hlen hm] at h
        obtain rfl := (Except.ok.inj h)
        have hpw := (mapM_pair_ok _ _ _ hm).2
        have hsorted : ((scored.enum.map (fun p => (p.1, p.2.2))).foldl
            (fun a x => insertDesc x a) []).Pairwise (fun a b => b.2 ≤ a.2) :=
          foldl_insertDesc_sorted _ _ List.Pairwise.nil
        -- indices of p and q in the output
        obtain ⟨ip, hip, hipv⟩ := List.mem_iff_getElem.mp hp
        obtain ⟨iq, hiq, hiqv⟩ := List.mem_iff_getElem.mp hq
        have hlenout : (annotateRanks scored).length = scored.length := by
          simp only [annotateRanks, List.length_map, List.enum_length]
        have hip2 : ip < scored.length := by rw [hlenout] at hip; exact hip
        have hiq2 : iq < scored.length := by rw [hlenout] at hiq; exact hiq
        have hipval : (annotateRanks scored)[ip] =
            (scored[ip].1, ((scored.enum.map (fun p => (p.1, p.2.2))).foldl
              (fun a x => insertDesc x a) []).findIdx (fun q => q.1 == ip) + 1) := by
          simp only [annotateRanks]
          rw [List.getElem_map, List.getElem_enum]
        have hiqval : (annotateRanks scored)[iq] =
            (scored[iq].1, ((scored.enum.map (fun p => (p.1, p.2.2))).foldl
              (fun a x => insertDesc x a) []).findIdx (fun q => q.1 == iq) + 1) := by
          simp only [annotateRanks]
          rw [List.getElem_map, List.getElem_enum]
        -- the y-values of p and q are the stored scores
        have hvp : vp = scored[ip].2 := by
          have hmem := hpw scored[ip] (List.getElem_mem hip2)
          have hp1 : p.1 = scored[ip].1 := by rw [← hipv, hipval]
          rw [hp1, hmem] at hgp
          exact (Except.ok.inj hgp).symm
        have hvq : vq = scored[iq].2 := by
          have hmem := hpw scored[iq] (List.getElem_mem hiq2)
          have hq1 : q.1 = scored[iq].1 := by rw [← hiqv, hiqval]
          rw [hq1, hmem] at hgq
          exact (Except.ok.inj hgq).symm
        -- the sorted list is nonempty
        have hsortlen : ((scored.enum.map (fun p => (p.1, p.2.2))).foldl
            (fun a x => insertDesc x a) []).length = scored.length := by
          rw [foldl_insertDesc_length, List.length_map, List.enum_length]
          simp
        cases hs : (scored.enum.map (fun p => (p.1, p.2.2))).foldl
            (fun a x => insertDesc x a) [] with
        | nil =>
            rw [hs] at hsortlen
            simp at hsortlen
            omega
        | cons hd tl =>
            -- rank 1 forces the head of the sorted order to carry index ip
            have hfind : (((scored.enum.map (fun p => (p.1, p.2.2))).foldl
                (fun a x => insertDesc x a) []).findIdx (fun q => q.1 == ip)) = 0 := by
              have hk := hrank
              rw [← hipv, hipval] at hk
              simpa using hk
            have hhd1 : hd.1 = ip := by
              rw [hs, List.findIdx_cons] at hfind
              cases hc : (hd.1 == ip) with
              | false => rw [hc] at hfind; simp at hfind
              | true => simpa using hc
            -- head of the sorted order stores the score of index ip
            have hhdmem : hd ∈ scored.enum.map (fun p => (p.1, p.2.2)) := by
              have hmem : hd ∈ (scored.enum.map (fun p => (p.1, p.2.2))).foldl
                  (fun a x => insertDesc x a) [] := by
                rw [hs]; simp
              rcases (mem_foldl_insertDesc hd _ []).mp hmem with hc | hc
              · simp at hc
              · exact hc
            obtain ⟨hk, hv⟩ := (mem_indexed scored hd).mp hhdmem
            have hhd2 : hd.2 = scored[ip].2 := by
              subst hhd1
              exact hv.symm
            -- q's score appears in the sorted order, below or at the head
            have hqmem : ((iq, scored[iq].2) : Nat × Rat) ∈
                (scored.enum.map (fun p => (p.1, p.2.2))).foldl
                  (fun a x => insertDesc x a) [] := by
              refine (mem_foldl_insertDesc _ _ []).mpr (Or.inr ?_)
              exact (mem_indexed scored (iq, scored[iq].2)).mpr ⟨hiq2, rfl⟩
            rw [hs] at hqmem
            rcases List.mem_cons.mp hqmem with hc | hc
            · have : scored[iq].2 = hd.2 := by rw [← hc]
              rw [hvp, hvq, this, hhd2]
            · rw [hs] at hsorted
              rw [List.pairwise_cons] at hsorted
              have hle := hsorted.1 _ hc
              rw [hvp, hvq, ← hhd2]
              exact hle

/-- C10 counterexample: with a single in-interval record and the
unrecognized field `bogus`, `annotateData` does not throw — the sort
comparator is never invoked on a one-element array, so the function
returns the record with rank 1 — refuting the claim that an unrecognized
`y_field` always raises the error. -/
theorem c10_counterexample :
    annotateData [⟨0, 1, 0, 0⟩] ⟨-1, 1, "bogus"⟩ =
      Except.ok [(⟨0, 1, 0, 0⟩, 1)] ∧
    ("bogus" : String) ∉ (["log_pvalue", "beta", "pip"] : List String) :=
  ⟨rfl, by decide⟩

/-- C10 amended: `annotateData` keeps exactly the records whose
`tss_distance` lies in the closed interval of the chain header (in order);
when the `y_field` is unrecognized and at least two records survive the
filter, it throws `Unrecognized sort field` (with fewer records the
comparator never runs and no error is thrown); in every successful outcome
each record carries a `top_value_rank`, some record has rank 1 whenever
the output is nonempty, and a rank-1 record has the largest `y_field`
value (beta taken by absolute value inside `getValue`). -/
theorem c10_amended (records : List EqtlRecord) (header : ChainHeader) :
    (∀ out, annotateData records header = Except.ok out →
        out.map Prod.fst = records.filter (fun r =>
          decide (r.tss_distance ≤ header.maximum_tss_distance) &&
          decide (header.minimum_tss_distance ≤ r.tss_distance)))
    ∧ (header.y_field ∉ (["log_pvalue", "beta", "pip"] : List String) →
        2 ≤ (records.filter (fun r =>
          decide (r.tss_distance ≤ header.maximum_tss_distance) &&
          decide (header.minimum_tss_distance ≤ r.tss_distance))).length →
        annotateData records header = Except.error "Unrecognized sort field")
    ∧ (∀ out, annotateData records header = Except.ok out →
        ∀ p ∈ out, p.2 = 1 →
          ∀ q ∈ out, ∀ vp vq : Rat,
            getValue header.y_field p.1 = Except.ok vp →
            getValue header.y_field q.1 = Except.ok vq → vq ≤ vp)
    ∧ (∀ out, annotateData records header = Except.ok out → out ≠ [] →
        ∃ p ∈ out, p.2 = 1) :=
  ⟨fun out h => annotateData_ok_filter records header out h,
   fun hf hlen => annotateData_invalid_field records header hf hlen,
   fun out h p hp hr q hq vp vq hgp hgq =>
     annotateData_rank_one_max records header out h p hp hr q hq vp vq hgp hgq,
   fun out h hne => annotateData_rank_one_exists records header out h hne⟩

/-- Witness for C10 at two records ranked by `log_pvalue`. -/
theorem c10_witness :
    (([(⟨0, 1, 0, 0⟩, 2), (⟨0, 5, 0, 0⟩, 1)] : List (EqtlRecord × Nat)).map Prod.fst =
      ([⟨0, 1, 0, 0⟩, ⟨0, 5, 0, 0⟩] : List EqtlRecord).filter (fun r =>
        decide (r.tss_distance ≤ (⟨-1, 1, "log_pvalue"⟩ : ChainHeader).maximum_tss_distance) &&
        decide ((⟨-1, 1, "log_pvalue"⟩ : ChainHeader).minimum_tss_distance ≤ r.tss_distance)))
    ∧ (∃ p ∈ ([(⟨0, 1, 0, 0⟩, 2), (⟨0, 5, 0, 0⟩, 1)] : List (EqtlRecord × Nat)), p.2 = 1) :=
  ⟨(c10_amended [⟨0, 1, 0, 0⟩, ⟨0, 5, 0, 0⟩] ⟨-1, 1, "log_pvalue"⟩).1
      [(⟨0, 1, 0, 0⟩, 2), (⟨0, 5, 0, 0⟩, 1)] (by rfl),
   (c10_amended [⟨0, 1, 0, 0⟩, ⟨0, 5, 0, 0⟩] ⟨-1, 1, "log_pvalue"⟩).2.2.2
      [(⟨0, 1, 0, 0⟩, 2), (⟨0, 5, 0, 0⟩, 1)] (by rfl) (by simp)⟩
